import Mathlib

/-!
Verification development for the outline / section extraction pipeline of the
Adobe-India-Hackathon25 repository (Challenge_1a/process_pdfs.py and
Challenge_1b/main.py).

Text is modelled as lists of characters.  Font sizes and coordinates are
modelled as integers: the code only compares them, subtracts them and takes
absolute values, and no behaviour settled here depends on fractional values,
while integer arithmetic keeps every definition evaluable by the kernel.
The external k-means clustering (sklearn, fixed random_state=42)
is outside the repository: its resulting center list is passed as an explicit
argument, and theorems quantify over an arbitrary center list, which subsumes
every output the external clustering can produce.  Character classes follow
the ASCII reading of the Python regexes.
-/

/-- Fragment record produced by extract_spans in process_pdfs.py: page number
(0-based), vertical position rounded to one decimal, stripped non-empty text,
font size, font name and the left bounding-box coordinate bbox[0]. -/
structure Span where
  pno : Nat
  y0 : ℤ
  text : List Char
  size : ℤ
  font : List Char
  x0 : ℤ
deriving DecidableEq, Repr

/-- First index of the minimum of a list of values, as np.argmin computes
it: ties go to the earliest index.  np.argmin faults on an empty array; the
model returns 0 there, a case no caller reaches. -/
def argmin : List ℤ → Nat
  | [] => 0
  | [_] => 0
  | x :: y :: xs =>
    let j := argmin (y :: xs)
    if (y :: xs).getD j 0 < x then j + 1 else 0

/-- map_cluster of process_pdfs.py (lines 51-54): index of the cluster center
nearest to the given size, computed as np.argmin over absolute differences. -/
def map_cluster (size : ℤ) (centers : List ℤ) : Nat :=
  argmin (centers.map fun c => |size - c|)

/-- is_numbered of process_pdfs.py (lines 57-59).  The regex of one or more
digits, an optional period and further digits, anchored only at the start of
the text, succeeds exactly when the first character is a digit. -/
def is_numbered (t : List Char) : Bool :=
  match t with
  | [] => false
  | c :: _ => c.isDigit

/-- Full regex match of one or more digits (process_pdfs.py line 100). -/
def isIntLit (t : List Char) : Bool :=
  !t.isEmpty && t.all fun c => c.isDigit

/-- Full regex match of one or more digits followed by an optional period,
the page-number filter of process_pdfs.py line 98. -/
def isIntDot (t : List Char) : Bool :=
  isIntLit t ||
    (match t.getLast? with
     | some c => c == '.' && isIntLit t.dropLast
     | none => false)

/-- Number of distinct pages on which some Fragment carries exactly the given
text: the size of the page set text_pages[t] built at lines 81-83 of
process_pdfs.py, and 0 when the text never occurs as a Fragment text (the
dict lookup default at line 97). -/
def textPageCount (spans : List Span) (t : List Char) : Nat :=
  (((spans.filter fun s => s.text == t).map fun s => s.pno).dedup).length

/-- Accumulator pass of keyList: keys already seen are skipped, new keys are
kept in order of first occurrence. -/
def keyListAux (seen : List (Nat × ℤ)) : List (Nat × ℤ) → List (Nat × ℤ)
  | [] => []
  | k :: rest =>
    if seen.contains k then keyListAux seen rest
    else k :: keyListAux (k :: seen) rest

/-- First-occurrence deduplication of a key sequence, matching the insertion
order of the Python dict built at lines 75-78 of process_pdfs.py. -/
def keyList (ks : List (Nat × ℤ)) : List (Nat × ℤ) :=
  keyListAux [] ks

/-- Grouping of Fragments by (page, rounded vertical position): the Python
dict of process_pdfs.py lines 75-78, as an association list in first-insertion
key order, each group keeping the original Fragment order. -/
def lineGroups (spans : List Span) : List ((Nat × ℤ) × List Span) :=
  (keyList (spans.map fun s => (s.pno, s.y0))).map
    fun k => (k, spans.filter fun s => (s.pno, s.y0) == k)

/-- Stable sort of a group of Fragments by horizontal position: the in-place
group.sort of process_pdfs.py line 93.  The Python sort is stable, and a
stable sort induced by a total preorder is unique, so it is modelled by
insertion sort. -/
def sortByX (g : List Span) : List Span :=
  List.insertionSort (fun a b => a.x0 ≤ b.x0) g

/-- Merged text of a Line: Fragment texts sorted by horizontal position and
joined with single spaces (process_pdfs.py line 94). -/
def lineText (g : List Span) : List Char :=
  List.intercalate [' '] ((sortByX g).map fun s => s.text)

/-- Cluster index of each Fragment of a Line (process_pdfs.py line 103). -/
def lineIdxs (centers : List ℤ) (g : List Span) : List Nat :=
  (sortByX g).map fun s => map_cluster s.size centers

/-- Python max over the cluster indices (line 104); 0 for an empty group, a
case the grouping step never produces. -/
def rawMaxC (centers : List ℤ) (g : List Span) : Nat :=
  (lineIdxs centers g).foldl Nat.max 0

/-- Whether some Fragment of the Line falls in the smallest cluster
(process_pdfs.py line 107). -/
def hasZeroIdx (centers : List ℤ) (g : List Span) : Bool :=
  (lineIdxs centers g).any fun i => i == 0

/-- Python substring containment (the in operator on str): the needle occurs
contiguously somewhere in the haystack. -/
def containsSub (needle : List Char) : List Char → Bool
  | [] => needle.isEmpty
  | c :: cs => needle.isPrefixOf (c :: cs) || containsSub needle cs

/-- Bold-or-Italic substring test on every Fragment font name of the Line
(process_pdfs.py line 109). -/
def allBoldItalic (g : List Span) : Bool :=
  (sortByX g).all fun s =>
    containsSub ("Bold".toList) s.font || containsSub ("Italic".toList) s.font

/-- Depth number the code derives from the font tier before the numbering
adjustment: the d of the label Hd computed at process_pdfs.py line 118 when
no Fragment sits in the smallest cluster. -/
def rawBaseDepth (centers : List ℤ) (g : List Span) : Nat :=
  centers.length - rawMaxC centers g

/-- Heading record accumulated at process_pdfs.py line 122: 1-based page,
vertical position, depth number d of the label Hd, and the merged text with
one trailing space. -/
structure Heading where
  page : Nat
  y : ℤ
  level : Nat
  text : List Char
deriving DecidableEq, Repr

/-- Heading decision for one aggregated Line: process_pdfs.py lines 86-122.
The centers argument is the sorted center list of the external k-means step;
depth labels are modelled by their numeric part, so level 1 stands for the
string H1.  Subtractions are on Nat; they mirror the Python ints on every
center list the clamped clustering (at most 4 centers) can return. -/
def processLine (heights : Nat → ℤ) (spans : List Span) (centers : List ℤ)
    (k : Nat × ℤ) (g : List Span) : Option Heading :=
  if k.2 < 30 ∨ k.2 > heights k.1 - 30 then none
  else if 2 < textPageCount spans (lineText g) then none
  else if isIntDot (lineText g) then none
  else if 5 < g.length then none
  else if isIntLit (lineText g) then none
  else if hasZeroIdx centers g ∧ ¬ allBoldItalic g then none
  else
    let maxC := if hasZeroIdx centers g then 1 else rawMaxC centers g
    if maxC < 2 then none
    else
      let lvl := centers.length - maxC
      let lvl2 := if is_numbered (lineText g) ∧ lvl ≠ 1 then lvl - 1 else lvl
      some { page := k.1 + 1, y := k.2, level := lvl2, text := lineText g ++ [' '] }

/-- All Headings produced by the per-Line filter, in grouping order
(process_pdfs.py lines 85-122). -/
def allHeadings (heights : Nat → ℤ) (spans : List Span) (centers : List ℤ) :
    List Heading :=
  (lineGroups spans).filterMap fun kg => processLine heights spans centers kg.1 kg.2

/-- Reading order on Headings, the comparison key of the sort at
process_pdfs.py line 125: page first, then vertical position. -/
def pageYOrder (a b : Heading) : Prop :=
  a.page < b.page ∨ (a.page = b.page ∧ a.y ≤ b.y)

instance : DecidableRel pageYOrder := fun a b =>
  inferInstanceAs (Decidable (a.page < b.page ∨ (a.page = b.page ∧ a.y ≤ b.y)))

/-- Headings sorted by (page, vertical position): the stable Python sort of
process_pdfs.py line 125, modelled by insertion sort. -/
def sortedHeadings (heights : Nat → ℤ) (spans : List Span) (centers : List ℤ) :
    List Heading :=
  List.insertionSort pageYOrder (allHeadings heights spans centers)

/-- Title candidates of process_pdfs.py lines 128-129: page-1 headings at
depth 1, stable-sorted by vertical position, first two kept. -/
def titleHeads (hs : List Heading) : List Heading :=
  (List.insertionSort (fun a b => a.y ≤ b.y)
    (hs.filter fun h => decide (h.page = 1) && decide (h.level = 1))).take 2

/-- Python whitespace class, for the strip calls. -/
def isPySpace (c : Char) : Bool :=
  c == ' ' || c == '\t' || c == '\n' || c == '\r' || c == '\x0b' || c == '\x0c'

/-- Python str.strip: remove whitespace from both ends. -/
def pyStrip (s : List Char) : List Char :=
  ((s.dropWhile isPySpace).reverse.dropWhile isPySpace).reverse

/-- Document title of process_pdfs.py line 130: concatenation of the title
candidates (each text keeps one trailing space), stripped. -/
def titleText (hs : List Heading) : List Char :=
  pyStrip (List.flatten ((titleHeads hs).map fun h => h.text))

/-- Headings surviving the title removal of process_pdfs.py line 134: a
heading is dropped exactly when it is on page 1, at depth 1, and its text
belongs to the set of title-candidate texts. -/
def finalHeadings (heights : Nat → ℤ) (spans : List Span) (centers : List ℤ) :
    List Heading :=
  let hs := sortedHeadings heights spans centers
  hs.filter fun h =>
    !(decide (h.page = 1) && decide (h.level = 1) &&
      ((titleHeads hs).any fun t => t.text == h.text))

/-- Outline entry emitted at process_pdfs.py line 136. -/
structure OutlineEntry where
  level : Nat
  text : List Char
  page : Nat
deriving DecidableEq, Repr

/-- extract_outline of process_pdfs.py lines 64-137, relative to the Fragment
list the parsing backend supplies, the page heights, and the cluster centers
computed by the external seeded k-means.  Empty input returns before the
clustering happens (line 67), so the result there does not depend on the
centers. -/
def extract_outline (heights : Nat → ℤ) (spans : List Span) (centers : List ℤ) :
    List Char × List OutlineEntry :=
  if spans.isEmpty then ([], [])
  else
    (titleText (sortedHeadings heights spans centers),
     (finalHeadings heights spans centers).map fun h =>
       { level := h.level, text := h.text, page := h.page })

/-- State pass of collapseRuns: the flag records whether the previous
character belonged to the run being replaced. -/
def collapseRunsAux (p : Char → Bool) : Bool → List Char → List Char
  | _, [] => []
  | inRun, c :: cs =>
    if p c then
      if inRun then collapseRunsAux p true cs
      else ' ' :: collapseRunsAux p true cs
    else c :: collapseRunsAux p false cs

/-- Replacement of every maximal run of characters satisfying p by one space:
one re.sub of a one-character-class-plus pattern with a space, as in
clean_text of main.py (lines 41-44). -/
def collapseRuns (p : Char → Bool) (s : List Char) : List Char :=
  collapseRunsAux p false s

/-- ASCII word character, the ASCII reading of the regex class of word
characters used in clean_text of main.py. -/
def isWordChar (c : Char) : Bool :=
  c.isAlphanum || c == '_'

/-- Characters the second substitution of clean_text keeps: word characters,
whitespace and the punctuation whitelist. -/
def isCleanKeep (c : Char) : Bool :=
  isWordChar c || isPySpace c ||
    c == '.' || c == ',' || c == '!' || c == '?' ||
    c == ';' || c == ':' || c == '-' || c == '(' || c == ')'

/-- clean_text of main.py lines 41-44: collapse whitespace runs to single
spaces, replace runs of characters outside the whitelist by single spaces,
then strip. -/
def clean_text (s : List Char) : List Char :=
  pyStrip (collapseRuns (fun c => !isCleanKeep c) (collapseRuns isPySpace s))

/-- Python str.isupper on the ASCII cased letters: some cased character
exists and every cased character is upper-case. -/
def pyIsUpper (s : List Char) : Bool :=
  (s.any fun c => c.isUpper || c.isLower) &&
    (s.all fun c => !(c.isUpper || c.isLower) || c.isUpper)

/-- Aggregated line record of DocumentAnalyzer.extract_sections in main.py
(lines 68-77): page (0-based), rounded vertical position, and the joined
span text of the line. -/
structure BLine where
  p : Nat
  y : ℤ
  text : List Char
deriving DecidableEq, Repr

/-- Section record of extract_sections: title, 1-based starting page, and
accumulated body text. -/
structure PySection where
  title : List Char
  page : Nat
  content : List Char
deriving DecidableEq, Repr

/-- Title of the implicit section opened when body text precedes any
heading-like line (main.py line 91). -/
def introTitle : List Char := "Introduction".toList

/-- Heading heuristic of main.py line 83: the raw line text is entirely
upper-case or ends with a colon. -/
def isSecTitle (t : List Char) : Bool :=
  pyIsUpper t || t.getLast? == some ':'

/-- One step of the section-building loop of main.py lines 80-91, carrying
the finished sections and the currently open one. -/
def secStep (st : List PySection × Option PySection) (item : BLine) :
    List PySection × Option PySection :=
  if isSecTitle item.text then
    (match st.2 with
     | some c => st.1 ++ [c]
     | none => st.1,
     some { title := clean_text item.text, page := item.p + 1, content := [] })
  else
    match st.2 with
    | some c => (st.1, some { c with content := c.content ++ ' ' :: clean_text item.text })
    | none => (st.1, some { title := introTitle, page := item.p + 1, content := clean_text item.text })

/-- Comparison key of the sort at main.py line 80: page, then vertical
position. -/
def blineOrder (a b : BLine) : Prop :=
  a.p < b.p ∨ (a.p = b.p ∧ a.y ≤ b.y)

instance : DecidableRel blineOrder := fun a b =>
  inferInstanceAs (Decidable (a.p < b.p ∨ (a.p = b.p ∧ a.y ≤ b.y)))

/-- Sections accumulated by extract_sections of main.py lines 78-93, before
the final length filter: lines stable-sorted by (page, vertical position),
folded through the title/body loop, the last open section closed at the
end. -/
def extract_sections_raw (ls : List BLine) : List PySection :=
  let st := (List.insertionSort blineOrder ls).foldl secStep ([], none)
  match st.2 with
  | some c => st.1 ++ [c]
  | none => st.1

/-- extract_sections of main.py line 95: keep exactly the sections whose
accumulated content is longer than 20 characters. -/
def extract_sections (ls : List BLine) : List PySection :=
  (extract_sections_raw ls).filter fun s => decide (20 < s.content.length)

/-- Sentence split of DocumentAnalyzer.extract_subsections (main.py line
110): the regex splits at every maximal run of spaces that is preceded by a
period, exclamation mark or question mark.  The skipping flag is true while
the spaces of the current separator are being consumed; the prev argument
carries the character immediately before the current position, for the
lookbehind. -/
def splitSentsFrom (skipping : Bool) (prev : Option Char) (acc : List Char) :
    List Char → List (List Char)
  | [] => [acc.reverse]
  | c :: cs =>
    if skipping && c == ' ' then
      splitSentsFrom true prev acc cs
    else if !skipping &&
        ((prev == some '.' || prev == some '!' || prev == some '?') && c == ' ') then
      acc.reverse :: splitSentsFrom true (some ' ') [] cs
    else
      splitSentsFrom false (some c) (c :: acc) cs

/-- Sentence split of a section body, main.py line 110. -/
def splitSentences (s : List Char) : List (List Char) :=
  splitSentsFrom false none [] s

/-- Ranked-section record as extract_subsections consumes it: originating
document, accumulated body content, and 1-based page. -/
structure Ranked where
  document : List Char
  content : List Char
  page : Nat
deriving DecidableEq, Repr

/-- Excerpt record of main.py line 113. -/
structure Excerpt where
  document : List Char
  refined_text : List Char
  page_number : Nat
deriving DecidableEq, Repr

/-- Default max_subs of DocumentAnalyzer (main.py line 61), the M of the top-M
excerpt rule; process_collection instantiates the analyzer with defaults. -/
def max_subs : Nat := 5

/-- Excerpt built from one ranked section: first three sentences of the body,
joined with single spaces (main.py lines 110-113). -/
def mkExcerpt (sec : Ranked) : Excerpt :=
  { document := sec.document,
    refined_text := List.intercalate [' '] ((splitSentences sec.content).take 3),
    page_number := sec.page }

/-- DocumentAnalyzer.extract_subsections of main.py lines 107-114: one
excerpt per section among the first max_subs of the ranked list. -/
def extract_subsections (ranked : List Ranked) : List Excerpt :=
  (ranked.take max_subs).map mkExcerpt

/-- Projection of a Heading to the emitted outline entry of process_pdfs.py
line 136. -/
def headingEntry (h : Heading) : OutlineEntry :=
  { level := h.level, text := h.text, page := h.page }

/-- Number of distinct pages on which a Line whose merged text equals t
occurs: the page count the running-header claim speaks about when a Line has
more than one Fragment. -/
def mergedLinePageCount (spans : List Span) (t : List Char) : Nat :=
  ((((lineGroups spans).filter fun kg => lineText kg.2 == t).map
    fun kg => kg.1.1).dedup).length

/-- Constant page height used by the concrete example documents. -/
def exHeights : Nat → ℤ := fun _ => 800

/-- Body-text font used by the concrete example documents. -/
def exFont : List Char := "F".toList

/-- Numbered second-tier heading Fragment of the first example document,
placed on page 2 so that it survives title removal. -/
def c1span : Span :=
  { pno := 1, y0 := 100, text := "1. Intro".toList, size := 12, font := exFont, x0 := 0 }

/-- First example document: three margin Fragments realising the sizes 8, 10
and 14, plus a numbered heading Fragment of size 12 on page 2.  The document
has the four distinct sizes 8, 10, 12, 14, so the clamped seeded k-means of
cluster_font_sizes returns exactly these values as its sorted centers. -/
def c1spans : List Span :=
  [{ pno := 0, y0 := 5, text := "a".toList, size := 8, font := exFont, x0 := 0 },
   { pno := 0, y0 := 10, text := "b".toList, size := 10, font := exFont, x0 := 0 },
   { pno := 0, y0 := 15, text := "c".toList, size := 14, font := exFont, x0 := 0 },
   c1span]

/-- Sorted centers of the first example document. -/
def c1centers : List ℤ := [8, 10, 12, 14]

/-- Second example document: a two-Fragment line reading Annual Report at the
same position on each of four pages, plus two margin Fragments realising the
sizes 8 and 10; its three distinct sizes make the clamped seeded k-means
return them as centers. -/
def c2spans : List Span :=
  [{ pno := 0, y0 := 5, text := "x".toList, size := 8, font := exFont, x0 := 0 },
   { pno := 0, y0 := 10, text := "y".toList, size := 10, font := exFont, x0 := 0 },
   { pno := 0, y0 := 100, text := "Annual".toList, size := 12, font := exFont, x0 := 0 },
   { pno := 0, y0 := 100, text := "Report".toList, size := 12, font := exFont, x0 := 50 },
   { pno := 1, y0 := 100, text := "Annual".toList, size := 12, font := exFont, x0 := 0 },
   { pno := 1, y0 := 100, text := "Report".toList, size := 12, font := exFont, x0 := 50 },
   { pno := 2, y0 := 100, text := "Annual".toList, size := 12, font := exFont, x0 := 0 },
   { pno := 2, y0 := 100, text := "Report".toList, size := 12, font := exFont, x0 := 50 },
   { pno := 3, y0 := 100, text := "Annual".toList, size := 12, font := exFont, x0 := 0 },
   { pno := 3, y0 := 100, text := "Report".toList, size := 12, font := exFont, x0 := 50 }]

/-- Sorted centers of the second example document. -/
def c2centers : List ℤ := [8, 10, 12]

/-- Merged text of the running-header line of the second example document. -/
def arText : List Char := "Annual Report".toList

/-- Third example document: three top-tier headings on page 1, the first and
the third sharing their text, plus two margin Fragments realising the sizes 8
and 10. -/
def c3spans : List Span :=
  [{ pno := 0, y0 := 5, text := "x".toList, size := 8, font := exFont, x0 := 0 },
   { pno := 0, y0 := 10, text := "y".toList, size := 10, font := exFont, x0 := 0 },
   { pno := 0, y0 := 100, text := "Alpha".toList, size := 12, font := exFont, x0 := 0 },
   { pno := 0, y0 := 200, text := "Beta".toList, size := 12, font := exFont, x0 := 0 },
   { pno := 0, y0 := 300, text := "Alpha".toList, size := 12, font := exFont, x0 := 0 }]

/-- Sorted centers of the third example document. -/
def c3centers : List ℤ := [8, 10, 12]

/-- Single-Fragment running header repeated on three pages, for the amended
running-header theorem. -/
def w2spans : List Span :=
  [{ pno := 0, y0 := 100, text := "Header".toList, size := 12, font := exFont, x0 := 0 },
   { pno := 1, y0 := 100, text := "Header".toList, size := 12, font := exFont, x0 := 0 },
   { pno := 2, y0 := 100, text := "Header".toList, size := 12, font := exFont, x0 := 0 }]

/-- The page-0 group of the single-Fragment running header. -/
def w2group : List Span :=
  [{ pno := 0, y0 := 100, text := "Header".toList, size := 12, font := exFont, x0 := 0 }]

/-- One-Fragment Line whose size falls in the smallest cluster of the centers
8, 10, 12. -/
def w9group : List Span :=
  [{ pno := 0, y0 := 100, text := "small".toList, size := 8, font := exFont, x0 := 0 }]

/-- Example line stream whose single explicit section accumulates exactly 20
characters of body text. -/
def c6lines : List BLine :=
  [{ p := 0, y := 1, text := "HEAD".toList },
   { p := 0, y := 2, text := "aaaaaaaaaaaaaaaaaaa".toList }]

/-- Example line stream whose single explicit section accumulates 22
characters of body text and is therefore retained. -/
def c10lines : List BLine :=
  [{ p := 0, y := 1, text := "HEAD".toList },
   { p := 0, y := 2, text := "abcdefghijklmnopqrstu".toList }]

/-- The section the c10lines stream produces. -/
def c10section : PySection :=
  { title := "HEAD".toList, page := 1, content := ' ' :: "abcdefghijklmnopqrstu".toList }

/-- Example ranked section with four sentences of body text. -/
def w8sec : Ranked :=
  { document := "d.pdf".toList, content := "One. Two. Three. Four.".toList, page := 3 }

/-- The excerpt extract_subsections produces for w8sec. -/
def w8excerpt : Excerpt :=
  { document := "d.pdf".toList, refined_text := "One. Two. Three.".toList, page_number := 3 }

/-- Unfolding of argmin on a list of two or more elements when the tail
minimum is strictly smaller than the head. -/
theorem argmin_cons_pos (x y : ℤ) (xs : List ℤ)
    (hc : (y :: xs).getD (argmin (y :: xs)) 0 < x) :
    argmin (x :: y :: xs) = argmin (y :: xs) + 1 := by
  show (if (y :: xs).getD (argmin (y :: xs)) 0 < x then argmin (y :: xs) + 1 else 0) =
    argmin (y :: xs) + 1
  rw [if_pos hc]

/-- Unfolding of argmin on a list of two or more elements when the head is
already minimal. -/
theorem argmin_cons_neg (x y : ℤ) (xs : List ℤ)
    (hc : ¬ (y :: xs).getD (argmin (y :: xs)) 0 < x) :
    argmin (x :: y :: xs) = 0 := by
  show (if (y :: xs).getD (argmin (y :: xs)) 0 < x then argmin (y :: xs) + 1 else 0) = 0
  rw [if_neg hc]

/-- The first-minimum index is inside the list. -/
theorem argmin_lt_length : ∀ (l : List ℤ), l ≠ [] → argmin l < l.length
  | [], h => absurd rfl h
  | [_], _ => by simp [argmin]
  | x :: y :: xs, _ => by
    have IH := argmin_lt_length (y :: xs) (by simp)
    by_cases hc : (y :: xs).getD (argmin (y :: xs)) 0 < x
    · rw [argmin_cons_pos x y xs hc]
      simp only [List.length_cons] at IH ⊢
      omega
    · rw [argmin_cons_neg x y xs hc]
      simp

/-- The value at the first-minimum index is a minimum of the list. -/
theorem argmin_le_getD : ∀ (l : List ℤ), ∀ j < l.length,
    l.getD (argmin l) 0 ≤ l.getD j 0
  | [], j, hj => absurd hj (by simp)
  | [x], j, hj => by
    have hj0 : j = 0 := by simp at hj; omega
    subst hj0
    simp [argmin]
  | x :: y :: xs, j, hj => by
    have IH := argmin_le_getD (y :: xs)
    by_cases hc : (y :: xs).getD (argmin (y :: xs)) 0 < x
    · rw [argmin_cons_pos x y xs hc, List.getD_cons_succ]
      match j, hj with
      | 0, _ => rw [List.getD_cons_zero]; exact le_of_lt hc
      | k + 1, hj =>
        rw [List.getD_cons_succ]
        exact IH k (by simp only [List.length_cons] at hj ⊢; omega)
    · rw [argmin_cons_neg x y xs hc, List.getD_cons_zero]
      match j, hj with
      | 0, _ => rw [List.getD_cons_zero]
      | k + 1, hj =>
        rw [List.getD_cons_succ]
        have h1 : x ≤ (y :: xs).getD (argmin (y :: xs)) 0 := le_of_not_lt hc
        exact le_trans h1 (IH k (by simp only [List.length_cons] at hj ⊢; omega))

/-- Every index before the first-minimum index holds a strictly larger
value: the tie-breaking behaviour of np.argmin. -/
theorem argmin_first : ∀ (l : List ℤ), ∀ j < argmin l,
    l.getD (argmin l) 0 < l.getD j 0
  | [], j, hj => absurd hj (by simp [argmin])
  | [_], j, hj => absurd hj (by simp [argmin])
  | x :: y :: xs, j, hj => by
    have IH := argmin_first (y :: xs)
    by_cases hc : (y :: xs).getD (argmin (y :: xs)) 0 < x
    · rw [argmin_cons_pos x y xs hc] at hj ⊢
      rw [List.getD_cons_succ]
      match j, hj with
      | 0, _ => rw [List.getD_cons_zero]; exact hc
      | k + 1, hj =>
        rw [List.getD_cons_succ]
        exact IH k (Nat.lt_of_succ_lt_succ hj)
    · rw [argmin_cons_neg x y xs hc] at hj
      exact absurd hj (Nat.not_lt_zero j)

/-- Element access through the absolute-difference map used by map_cluster. -/
theorem getD_map_absDiff (size : ℤ) (centers : List ℤ) (i : Nat)
    (hi : i < centers.length) :
    (centers.map fun c => |size - c|).getD i 0 = |size - centers.getD i 0| := by
  rw [List.getD_eq_getElem _ _ (by simpa using hi),
      List.getD_eq_getElem _ _ hi, List.getElem_map]

/-- C5: for every non-empty center list and every font size, map_cluster
returns exactly one level index, that index is inside the list, the chosen
center is at minimum absolute distance from the size among all centers, and
every center at a strictly earlier index is strictly farther away, so that
ties are broken towards the lowest index. -/
theorem map_cluster_nearest (size : ℤ) (centers : List ℤ) (h : centers ≠ []) :
    map_cluster size centers < centers.length ∧
    (∀ j, j < centers.length →
      |size - centers.getD (map_cluster size centers) 0| ≤
        |size - centers.getD j 0|) ∧
    (∀ j, j < map_cluster size centers →
      |size - centers.getD (map_cluster size centers) 0| <
        |size - centers.getD j 0|) := by
  have hne : centers.map (fun c => |size - c|) ≠ [] := by
    simpa using h
  have hlen : (centers.map fun c => |size - c|).length = centers.length :=
    List.length_map _ _
  have hlt : map_cluster size centers < centers.length := by
    have := argmin_lt_length (centers.map fun c => |size - c|) hne
    rw [hlen] at this
    exact this
  refine ⟨hlt, ?_, ?_⟩
  · intro j hj
    have := argmin_le_getD (centers.map fun c => |size - c|) j (by rw [hlen]; exact hj)
    rw [show argmin (centers.map fun c => |size - c|) = map_cluster size centers from rfl] at this
    rw [getD_map_absDiff size centers _ hlt, getD_map_absDiff size centers j hj] at this
    exact this
  · intro j hj
    have hjlen : j < centers.length := lt_trans hj hlt
    have := argmin_first (centers.map fun c => |size - c|) j hj
    rw [show argmin (centers.map fun c => |size - c|) = map_cluster size centers from rfl] at this
    rw [getD_map_absDiff size centers _ hlt, getD_map_absDiff size centers j hjlen] at this
    exact this

/-- Witness for map_cluster_nearest: size 9 against the centers 8 and 10, a
tie resolved to the lower index 0. -/
theorem map_cluster_nearest_witness :
    map_cluster 9 [8, 10] < ([8, 10] : List ℤ).length ∧
    (∀ j, j < ([8, 10] : List ℤ).length →
      |9 - ([8, 10] : List ℤ).getD (map_cluster 9 [8, 10]) 0| ≤
        |9 - ([8, 10] : List ℤ).getD j 0|) ∧
    (∀ j, j < map_cluster 9 [8, 10] →
      |9 - ([8, 10] : List ℤ).getD (map_cluster 9 [8, 10]) 0| <
        |9 - ([8, 10] : List ℤ).getD j 0|) :=
  map_cluster_nearest 9 [8, 10] (by simp)

instance : IsTotal Heading pageYOrder :=
  ⟨fun a b => by
    unfold pageYOrder
    rcases Nat.lt_trichotomy a.page b.page with h | h | h
    · exact Or.inl (Or.inl h)
    · rcases le_total a.y b.y with hy | hy
      · exact Or.inl (Or.inr ⟨h, hy⟩)
      · exact Or.inr (Or.inr ⟨h.symm, hy⟩)
    · exact Or.inr (Or.inl h)⟩

instance : IsTrans Heading pageYOrder :=
  ⟨fun a b c hab hbc => by
    unfold pageYOrder at hab hbc ⊢
    rcases hab with h1 | ⟨e1, y1⟩ <;> rcases hbc with h2 | ⟨e2, y2⟩
    · exact Or.inl (lt_trans h1 h2)
    · exact Or.inl (e2 ▸ h1)
    · exact Or.inl (e1 ▸ h2)
    · exact Or.inr ⟨e1.trans e2, le_trans y1 y2⟩⟩

/-- C4: the headings surviving title removal, whose projection the emitted
outline is, are pairwise ordered by (page ascending, vertical position
ascending); the emitted outline is exactly their projection; and a repeated
run of the extraction on the same input returns the identical result (the
embedding is a pure function of the document and of the centers, which the
fixed-seed clustering determines from the document). -/
theorem outline_sorted_and_deterministic (heights : Nat → ℤ) (spans : List Span)
    (centers : List ℤ) :
    (finalHeadings heights spans centers).Pairwise pageYOrder ∧
    (extract_outline heights spans centers).2 =
      (finalHeadings heights spans centers).map headingEntry ∧
    extract_outline heights spans centers = extract_outline heights spans centers := by
  refine ⟨?_, ?_, rfl⟩
  · have hs : (sortedHeadings heights spans centers).Pairwise pageYOrder :=
      List.sorted_insertionSort pageYOrder _
    exact List.Pairwise.filter _ hs
  · unfold extract_outline
    by_cases he : spans.isEmpty
    · rw [if_pos he]
      have hnil : spans = [] := by
        cases spans with
        | nil => rfl
        | cons a l => simp at he
      subst hnil
      rfl
    · rw [if_neg he]
      rfl

/-- C3 (amended): title extraction keeps at most two headings, all of them
page-1 headings at the topmost depth, ordered by vertical position; and the
removal step drops precisely the page-1 depth-1 headings whose text belongs
to the title text set, which can include headings beyond the two selected
ones when texts repeat. -/
theorem title_selection_and_removal (heights : Nat → ℤ) (spans : List Span)
    (centers : List ℤ) :
    (titleHeads (sortedHeadings heights spans centers)).length ≤ 2 ∧
    (∀ hd, hd ∈ titleHeads (sortedHeadings heights spans centers) →
      hd.page = 1 ∧ hd.level = 1) ∧
    (titleHeads (sortedHeadings heights spans centers)).Pairwise
      (fun a b => a.y ≤ b.y) ∧
    finalHeadings heights spans centers =
      (sortedHeadings heights spans centers).filter fun hd =>
        !(decide (hd.page = 1) && decide (hd.level = 1) &&
          ((titleHeads (sortedHeadings heights spans centers)).any
            fun t => t.text == hd.text)) := by
  refine ⟨?_, ?_, ?_, rfl⟩
  · unfold titleHeads
    rw [List.length_take]
    exact min_le_left _ _
  · intro hd hmem
    unfold titleHeads at hmem
    have h1 : hd ∈ List.insertionSort (fun a b => a.y ≤ b.y)
        ((sortedHeadings heights spans centers).filter
          fun h => decide (h.page = 1) && decide (h.level = 1)) :=
      List.take_subset _ _ hmem
    have h2 := (List.mem_insertionSort _).mp h1
    have h3 := List.mem_filter.mp h2
    have h4 := h3.2
    simp only [Bool.and_eq_true, decide_eq_true_eq] at h4
    exact h4
  · haveI : IsTotal Heading (fun a b => a.y ≤ b.y) :=
      ⟨fun a b => le_total a.y b.y⟩
    haveI : IsTrans Heading (fun a b => a.y ≤ b.y) :=
      ⟨fun a b c hab hbc => le_trans hab hbc⟩
    have hs : (List.insertionSort (fun a b => a.y ≤ b.y)
        ((sortedHeadings heights spans centers).filter
          fun h => decide (h.page = 1) && decide (h.level = 1))).Pairwise
        (fun a b => a.y ≤ b.y) :=
      List.sorted_insertionSort _ _
    exact List.Pairwise.sublist (List.take_sublist _ _) hs

/-- Witness for title_selection_and_removal at the third example document. -/
theorem title_selection_and_removal_witness :
    (titleHeads (sortedHeadings exHeights c3spans c3centers)).length ≤ 2 :=
  (title_selection_and_removal exHeights c3spans c3centers).1

/-- C3 counterexample: in the third example document three page-1 depth-1
headings survive the filters, the title keeps only the first two, yet the
removal also drops the third heading, which is not a title heading but shares
its text with one; the emitted outline is empty where the claim requires the
third heading to remain. -/
theorem title_removal_removes_extra :
    sortedHeadings exHeights c3spans c3centers =
      [{ page := 1, y := 100, level := 1, text := "Alpha ".toList },
       { page := 1, y := 200, level := 1, text := "Beta ".toList },
       { page := 1, y := 300, level := 1, text := "Alpha ".toList }] ∧
    titleHeads (sortedHeadings exHeights c3spans c3centers) =
      [{ page := 1, y := 100, level := 1, text := "Alpha ".toList },
       { page := 1, y := 200, level := 1, text := "Beta ".toList }] ∧
    ({ page := 1, y := 300, level := 1, text := "Alpha ".toList } : Heading) ∉
      titleHeads (sortedHeadings exHeights c3spans c3centers) ∧
    extract_outline exHeights c3spans c3centers = ("Alpha Beta".toList, []) := by
  decide

/-- C2 (amended): the running-header filter is keyed by Fragment-level text:
whenever the merged text of a Line occurs as the text of single Fragments on
more than two distinct pages, the Line is rejected.  (For a Line merged from
several Fragments the merged text normally never occurs as a Fragment text,
and the filter does not fire; see the counterexample.) -/
theorem span_text_page_filter (heights : Nat → ℤ) (spans : List Span)
    (centers : List ℤ) (k : Nat × ℤ) (g : List Span)
    (hrep : 2 < textPageCount spans (lineText g)) :
    processLine heights spans centers k g = none := by
  unfold processLine
  by_cases h1 : k.2 < 30 ∨ k.2 > heights k.1 - 30
  · rw [if_pos h1]
  · rw [if_neg h1, if_pos hrep]

/-- Witness for span_text_page_filter: the single-Fragment header repeated on
three pages is rejected. -/
theorem span_text_page_filter_witness :
    processLine exHeights w2spans c3centers (0, 100) w2group = none :=
  span_text_page_filter exHeights w2spans c3centers (0, 100) w2group (by decide)

/-- C2 counterexample: in the second example document the merged line text
Annual Report occurs on four distinct pages, but it is the merge of two
Fragments, so the Fragment-text page map never sees it; the line survives and
is emitted as a heading on pages 2, 3 and 4 (the page-1 copy becomes the
title), where the claim requires it to be excluded everywhere. -/
theorem merged_header_escapes_filter :
    mergedLinePageCount c2spans arText = 4 ∧
    textPageCount c2spans arText = 0 ∧
    extract_outline exHeights c2spans c2centers =
      (arText, [{ level := 1, text := arText ++ [' '], page := 2 },
                { level := 1, text := arText ++ [' '], page := 3 },
                { level := 1, text := arText ++ [' '], page := 4 }]) := by
  decide

/-- C9: a Line containing any Fragment whose size maps to font level 0 is
always rejected, whatever the styling: when not every Fragment is bold or
italic the level-0 test rejects it, and otherwise the maximum level is forced
to 1, which the body-text exclusion (level below 2) rejects.  Headings, and
hence outline entries, are exactly the non-none results of this function. -/
theorem level_zero_line_rejected (heights : Nat → ℤ) (spans : List Span)
    (centers : List ℤ) (k : Nat × ℤ) (g : List Span)
    (hz : ∃ s ∈ g, map_cluster s.size centers = 0) :
    processLine heights spans centers k g = none := by
  have hzb : hasZeroIdx centers g = true := by
    rcases hz with ⟨s, hs, h0⟩
    unfold hasZeroIdx lineIdxs
    rw [List.any_eq_true]
    refine ⟨map_cluster s.size centers, ?_, by simp [h0]⟩
    exact List.mem_map_of_mem _ ((List.mem_insertionSort _).mpr hs)
  unfold processLine
  by_cases h1 : k.2 < 30 ∨ k.2 > heights k.1 - 30
  · rw [if_pos h1]
  rw [if_neg h1]
  by_cases h2 : 2 < textPageCount spans (lineText g)
  · rw [if_pos h2]
  rw [if_neg h2]
  by_cases h3 : isIntDot (lineText g)
  · rw [if_pos h3]
  rw [if_neg h3]
  by_cases h4 : 5 < g.length
  · rw [if_pos h4]
  rw [if_neg h4]
  by_cases h5 : isIntLit (lineText g)
  · rw [if_pos h5]
  rw [if_neg h5]
  by_cases h6 : hasZeroIdx centers g ∧ ¬ allBoldItalic g
  · rw [if_pos h6]
  rw [if_neg h6]
  simp [hzb]

/-- Witness for level_zero_line_rejected: a single Fragment of size 8 against
the centers 8, 10, 12 maps to level 0 and its Line is rejected. -/
theorem level_zero_line_rejected_witness :
    processLine exHeights w9group c3centers (0, 100) w9group = none :=
  level_zero_line_rejected exHeights w9group c3centers (0, 100) w9group
    ⟨{ pno := 0, y0 := 100, text := "small".toList, size := 8, font := exFont, x0 := 0 },
     by decide, by decide⟩

/-- C1 (amended): when a Line survives the heading filters, its emitted depth
number is the base depth derived from its font tier, shifted one level
shallower (numerically smaller) when the text starts with a digit and the
base depth is not already the top depth 1; a numbered line at the top depth
is left unchanged. -/
theorem numbered_line_level_shift (heights : Nat → ℤ) (spans : List Span)
    (centers : List ℤ) (k : Nat × ℤ) (g : List Span) (hd : Heading)
    (hp : processLine heights spans centers k g = some hd) :
    hd.level =
      if is_numbered (lineText g) ∧ rawBaseDepth centers g ≠ 1
      then rawBaseDepth centers g - 1
      else rawBaseDepth centers g := by
  unfold processLine at hp
  by_cases h1 : k.2 < 30 ∨ k.2 > heights k.1 - 30
  · rw [if_pos h1] at hp; exact absurd hp (by simp)
  rw [if_neg h1] at hp
  by_cases h2 : 2 < textPageCount spans (lineText g)
  · rw [if_pos h2] at hp; exact absurd hp (by simp)
  rw [if_neg h2] at hp
  by_cases h3 : isIntDot (lineText g)
  · rw [if_pos h3] at hp; exact absurd hp (by simp)
  rw [if_neg h3] at hp
  by_cases h4 : 5 < g.length
  · rw [if_pos h4] at hp; exact absurd hp (by simp)
  rw [if_neg h4] at hp
  by_cases h5 : isIntLit (lineText g)
  · rw [if_pos h5] at hp; exact absurd hp (by simp)
  rw [if_neg h5] at hp
  by_cases h6 : hasZeroIdx centers g ∧ ¬ allBoldItalic g
  · rw [if_pos h6] at hp; exact absurd hp (by simp)
  rw [if_neg h6] at hp
  by_cases hz : hasZeroIdx centers g = true
  · rw [if_pos hz] at hp
    simp at hp
  · rw [if_neg hz] at hp
    by_cases hlt : rawMaxC centers g < 2
    · rw [if_pos hlt] at hp; exact absurd hp (by simp)
    · rw [if_neg hlt] at hp
      have hinj := Option.some.inj hp
      rw [← hinj]
      rfl

/-- Witness for numbered_line_level_shift: the numbered line of the first
example document has base depth 2 and is emitted at depth 1 = 2 - 1. -/
theorem numbered_line_level_shift_witness :
    ({ page := 2, y := 100, level := 1, text := "1. Intro ".toList } : Heading).level =
      if is_numbered (lineText [c1span]) ∧ rawBaseDepth c1centers [c1span] ≠ 1
      then rawBaseDepth c1centers [c1span] - 1
      else rawBaseDepth c1centers [c1span] :=
  numbered_line_level_shift exHeights c1spans c1centers (1, 100) [c1span]
    { page := 2, y := 100, level := 1, text := "1. Intro ".toList } (by decide)

/-- C1 counterexample: in the first example document the line starting with
the numeral 1 has base depth 2 (second-largest font tier among four centers)
and the claim requires it to be emitted one level deeper, at depth 3; the
code instead emits it one level shallower, at depth 1. -/
theorem numbered_line_emitted_shallower :
    is_numbered (lineText [c1span]) = true ∧
    rawBaseDepth c1centers [c1span] = 2 ∧
    extract_outline exHeights c1spans c1centers =
      ([], [{ level := 1, text := "1. Intro ".toList, page := 2 }]) ∧
    (1 : Nat) ≠ 2 + 1 := by
  decide

/-- C6 (amended): extract_sections retains exactly the sections whose body is
strictly longer than 20 characters, so a section whose body has length
exactly 20 is discarded, not retained. -/
theorem section_retention_iff (ls : List BLine) (s : PySection) :
    s ∈ extract_sections ls ↔
      s ∈ extract_sections_raw ls ∧ 20 < s.content.length := by
  unfold extract_sections
  rw [List.mem_filter]
  simp

/-- C6 counterexample: the c6lines stream builds one section whose body is
exactly 20 characters long, and extract_sections discards it, where the
claim requires every section of length 20 or more to be retained. -/
theorem section_length_twenty_dropped :
    (extract_sections_raw c6lines).map (fun s => s.content.length) = [20] ∧
    extract_sections c6lines = [] := by
  decide

/-- One step of the section fold preserves the separator-space invariant:
every finished or open section that is not the implicit Introduction has an
empty body or a body starting with a space. -/
theorem secStep_preserve (st : List PySection × Option PySection) (item : BLine)
    (hdone : ∀ s ∈ st.1, s.title ≠ introTitle →
      s.content = [] ∨ s.content.head? = some ' ')
    (hcur : ∀ s, st.2 = some s → s.title ≠ introTitle →
      s.content = [] ∨ s.content.head? = some ' ') :
    (∀ s ∈ (secStep st item).1, s.title ≠ introTitle →
      s.content = [] ∨ s.content.head? = some ' ') ∧
    (∀ s, (secStep st item).2 = some s → s.title ≠ introTitle →
      s.content = [] ∨ s.content.head? = some ' ') := by
  obtain ⟨done, cur⟩ := st
  cases cur with
  | none =>
    by_cases ht : isSecTitle item.text
    · constructor
      · intro s hs hti
        simp only [secStep, ht, if_true] at hs
        exact hdone s hs hti
      · intro s hs hti
        simp only [secStep, ht, if_true] at hs
        have : s = ⟨clean_text item.text, item.p + 1, []⟩ := by
          simpa using hs.symm
        subst this
        exact Or.inl rfl
    · constructor
      · intro s hs hti
        simp only [secStep, ht, if_false] at hs
        exact hdone s hs hti
      · intro s hs hti
        simp only [secStep, ht, if_false] at hs
        have : s = ⟨introTitle, item.p + 1, clean_text item.text⟩ := by
          simpa using hs.symm
        subst this
        exact absurd rfl hti
  | some c =>
    have hc := hcur c rfl
    by_cases ht : isSecTitle item.text
    · constructor
      · intro s hs hti
        simp only [secStep, ht, if_true] at hs
        rcases List.mem_append.mp hs with hm | hm
        · exact hdone s hm hti
        · have : s = c := by simpa using hm
          subst this
          exact hc hti
      · intro s hs hti
        simp only [secStep, ht, if_true] at hs
        have : s = ⟨clean_text item.text, item.p + 1, []⟩ := by
          simpa using hs.symm
        subst this
        exact Or.inl rfl
    · constructor
      · intro s hs hti
        simp only [secStep, ht, if_false] at hs
        exact hdone s hs hti
      · intro s hs hti
        simp only [secStep, ht, if_false] at hs
        have hsc : s = ⟨c.title, c.page, c.content ++ ' ' :: clean_text item.text⟩ := by
          simpa using hs.symm
        subst hsc
        simp only at hti
        rcases hc hti with he | hh
        · rw [he]
          exact Or.inr rfl
        · right
          rcases hct : c.content with _ | ⟨a, l⟩
          · rfl
          · rw [hct] at hh
            simp only [List.head?_cons, Option.some.injEq] at hh
            simp [hh]

/-- The section fold preserves the separator-space invariant along any list
of lines. -/
theorem foldl_secStep_space (items : List BLine) :
    ∀ st : List PySection × Option PySection,
    (∀ s ∈ st.1, s.title ≠ introTitle →
      s.content = [] ∨ s.content.head? = some ' ') →
    (∀ s, st.2 = some s → s.title ≠ introTitle →
      s.content = [] ∨ s.content.head? = some ' ') →
    (∀ s ∈ (items.foldl secStep st).1, s.title ≠ introTitle →
      s.content = [] ∨ s.content.head? = some ' ') ∧
    (∀ s, (items.foldl secStep st).2 = some s → s.title ≠ introTitle →
      s.content = [] ∨ s.content.head? = some ' ') := by
  induction items with
  | nil => intro st hdone hcur; exact ⟨hdone, hcur⟩
  | cons item rest ih =>
    intro st hdone hcur
    rw [List.foldl_cons]
    have hstep := secStep_preserve st item hdone hcur
    exact ih (secStep st item) hstep.1 hstep.2

/-- C10: every section extract_sections returns that was opened by an
explicit title line (every returned section other than the implicit
Introduction) has a body beginning with the separator space prepended before
its first body line; the separator spaces therefore count toward the length
threshold. -/
theorem explicit_section_body_starts_space (ls : List BLine) (s : PySection)
    (hmem : s ∈ extract_sections ls) (hti : s.title ≠ introTitle) :
    s.content.head? = some ' ' := by
  unfold extract_sections at hmem
  have h := List.mem_filter.mp hmem
  have hlen : 20 < s.content.length := by simpa using h.2
  have hraw := h.1
  have hfold := foldl_secStep_space (List.insertionSort blineOrder ls) ([], none)
    (by intro s hs; simp at hs) (by intro s hs; simp at hs)
  simp only [extract_sections_raw] at hraw
  have hP : s.content = [] ∨ s.content.head? = some ' ' := by
    rcases hcc : ((List.insertionSort blineOrder ls).foldl secStep ([], none)).2
        with _ | c
    · rw [hcc] at hraw
      exact hfold.1 s hraw hti
    · rw [hcc] at hraw
      rcases List.mem_append.mp hraw with hm | hm
      · exact hfold.1 s hm hti
      · have : s = c := by simpa using hm
        subst this
        exact hfold.2 s hcc hti
  rcases hP with he | hh
  · rw [he] at hlen
    simp at hlen
  · exact hh

/-- Witness for explicit_section_body_starts_space: the retained section of
the c10lines stream is not the Introduction and its body starts with the
separator space. -/
theorem explicit_section_body_starts_space_witness :
    c10section.content.head? = some ' ' :=
  explicit_section_body_starts_space c10lines c10section (by decide) (by decide)

/-- C8: excerpts are produced exactly for the sections among the first
max_subs = 5 entries of the ranked list, and each excerpt's refined text is
the space-join of at most the first three sentences of its section's body,
split at space runs following a period, exclamation mark or question mark. -/
theorem subsections_top5_three_sentences (ranked : List Ranked) :
    (extract_subsections ranked).length = min max_subs ranked.length ∧
    ∀ e ∈ extract_subsections ranked, ∃ sec ∈ ranked.take max_subs,
      e = mkExcerpt sec ∧
      ∃ sents, sents = (splitSentences sec.content).take 3 ∧ sents.length ≤ 3 ∧
        e.refined_text = List.intercalate [' '] sents := by
  constructor
  · unfold extract_subsections
    rw [List.length_map, List.length_take]
  · intro e he
    unfold extract_subsections at he
    rcases List.mem_map.mp he with ⟨sec, hsec, hE⟩
    refine ⟨sec, hsec, hE.symm, (splitSentences sec.content).take 3, rfl, ?_, ?_⟩
    · rw [List.length_take]
      exact min_le_left _ _
    · rw [← hE]
      rfl

/-- Witness for subsections_top5_three_sentences at the one-section ranked
list w8sec: its excerpt keeps the first three of four sentences. -/
theorem subsections_top5_three_sentences_witness :
    ∃ sec ∈ [w8sec].take max_subs, w8excerpt = mkExcerpt sec ∧
      ∃ sents, sents = (splitSentences sec.content).take 3 ∧ sents.length ≤ 3 ∧
        w8excerpt.refined_text = List.intercalate [' '] sents :=
  (subsections_top5_three_sentences [w8sec]).2 w8excerpt (by decide)

/-- C7: a document yielding zero Fragments produces an empty title and an
empty outline, whatever the page heights and whatever centers the clustering
step would have produced, and repeated evaluation returns the same empty
result. -/
theorem empty_spans_empty_outline (heights : Nat → ℤ) (centers : List ℤ) :
    extract_outline heights [] centers = ([], []) ∧
    extract_outline heights [] centers = extract_outline heights [] centers :=
  ⟨rfl, rfl⟩
